import Mathlib

/-!
Verification development for the Aura interpreter (a Go tree-walking
interpreter for a small Spanish-keyword scripting language).

The development shallowly embeds the repository's parser (packages
`parser` and `ast`, with the older `src` package versions used for the
sub-parsers whose newer files are not in the tree) and the evaluator
fragment of `package evaluator` (map / list construction, subscript
reassignment and method dispatch).

Modelling conventions:
  - Tokens are pulled from a finite list; after the list is exhausted the
    lexer collaborator yields an infinite EOF tail (spec section 6), so
    `advanceTokens` synthesizes EOF tokens once the list is empty.
  - In Go the parser's `currentToken` and `peekToken` are pointers that
    are nil only before `NewParser` performs its two initial
    `advanceTokens` calls; afterwards they always point at real tokens
    because the lexer never returns nil.  The embedding therefore carries
    plain `Token` values and `checkCurrentTokenIsNotNil` /
    `checkPeekTokenIsNotNil` become no-ops: their panic branches cannot
    fire after initialization.  The one panic branch of `parseExpression`
    that inspects a parsed *expression* ("Error de parseo :(") is kept,
    as the `goPanic` outcome.
  - Go panics (the parser's explicit panic, slice index-out-of-range on a
    native slice write, and a failed single-result type assertion) are
    modelled as an explicit panic outcome (`PRes.goPanic` in the parser,
    `Except.error` in the evaluator fragment).
  - Every potentially recursive parser function lives in one fuel-indexed
    family `parserCore`: level `fuel + 1` functions call level `fuel`
    functions, and level 0 returns `PRes.timeout`.  A run of the Go code
    that terminates is a run of the embedding with enough fuel; a Go-level
    infinite loop is `timeout` at every fuel.
  - Functions of the repository that are referenced but whose defining
    file is not in the tree (the `obj` object model, `Evaluate`, and a few
    sub-parsers) are modelled from the spec; each carries a doc comment
    starting with "Modelled from the spec:".
-/

/-- Token kinds of the lexer (`src/lexer/token.go`), extended with the
kinds the newer parser references whose lexer file is not in the tree
(FLOAT, BAR, CLASS, NEW, DOT, COLONASSING, IMPORTT). -/
inductive TokenType where
  | Head
  | AND
  | ASSING
  | ARROW
  | COLON
  | COMMA
  | DATASTRCUT
  | DIVISION
  | DIVASSING
  | ELSE
  | EOF
  | EQ
  | EXPONENT
  | FALSE
  | FOR
  | FUNCTION
  | GT
  | GTOREQ
  | IDENT
  | IF
  | ILLEGAL
  | IN
  | INT
  | LBRACE
  | LBRACKET
  | LET
  | LPAREN
  | LT
  | LTOREQ
  | MINUS
  | MINUS2
  | MINUSASSING
  | NOT
  | NOT_EQ
  | MOD
  | OR
  | PLUS
  | PLUS2
  | PLUSASSING
  | RBRACE
  | RBRACKET
  | RETURN
  | RPAREN
  | SEMICOLON
  | TIMES
  | TIMEASSI
  | STRING
  | TRUE
  | WHILE
  | NULLT
  | MAP
  | FLOAT
  | BAR
  | CLASS
  | NEW
  | DOT
  | COLONASSING
  | IMPORTT
deriving DecidableEq, Repr

/-- A token: kind plus literal text (`lexer.Token`). -/
structure Token where
  tokenType : TokenType
  literal : String
deriving DecidableEq, Repr

/-- The token synthesized by the lexer's infinite EOF tail. -/
def eofToken : Token := ⟨TokenType.EOF, ""⟩

/-- The `Tokens` display-name array of `src/lexer/token.go` (used by
`expectedTokenError`).  Indices the Go array leaves uninitialized are the
empty string; names for the kinds whose newer lexer file is missing are
modelled from the spec's keyword table. -/
def TokensStr : TokenType → String
  | .AND => "&&"
  | .ASSING => "="
  | .COLON => ":"
  | .COMMA => ","
  | .DIVISION => "/"
  | .ELSE => "si_no"
  | .EOF => "final del archivo"
  | .EQ => "=="
  | .FALSE => "falso"
  | .FUNCTION => "funcion"
  | .GT => ">"
  | .IDENT => "identificador"
  | .IF => "si"
  | .ILLEGAL => "ilegal"
  | .IN => "en"
  | .INT => "INT"
  | .LBRACE => "\x7b"
  | .LET => "var"
  | .LPAREN => "("
  | .LT => "<"
  | .MINUS => "-"
  | .NOT => "!"
  | .NOT_EQ => "!="
  | .MOD => "%"
  | .OR => "||"
  | .PLUS => "+"
  | .RBRACE => "\x7d"
  | .RETURN => "regresa"
  | .RPAREN => ")"
  | .RBRACKET => "]"
  | .LBRACKET => "["
  | .SEMICOLON => ";"
  | .TIMES => "*"
  | .STRING => "\""
  | .TRUE => "verdaro"
  | .WHILE => "mientras"
  | .NULLT => "nulo"
  | .MAP => "mapa"
  | .PLUSASSING => "+="
  | .MINUSASSING => "-="
  | .TIMEASSI => "*="
  | .DIVASSING => "/="
  | .EXPONENT => "**"
  | .FLOAT => "FLOAT"
  | .BAR => "|"
  | .CLASS => "clase"
  | .NEW => "nuevo"
  | .DOT => "."
  | .COLONASSING => ":="
  | .ARROW => "->"
  | _ => ""

/-- Precedence levels (`parser.Precedence` constants of part_001). -/
def LOWEST : Nat := 1

def ANDOR : Nat := 2

def EQUEAL : Nat := 3

def LESSGRATER : Nat := 4

def SUM : Nat := 5

def PRODUCT : Nat := 6

def PREC_UNARY : Nat := 7

def CALL : Nat := 8

/-- The `precedences` map of part_001 (the newer parser): token kinds with
no entry have no precedence (the lookup's `exists` is false).
`PREC_UNARY` is the source's seventh level (named for the unary tier). -/
def precedences : TokenType → Option Nat
  | .AND => some ANDOR
  | .EQ => some EQUEAL
  | .NOT_EQ => some EQUEAL
  | .LT => some LESSGRATER
  | .LTOREQ => some LESSGRATER
  | .GT => some LESSGRATER
  | .GTOREQ => some LESSGRATER
  | .PLUS => some SUM
  | .MINUS => some SUM
  | .DIVISION => some PRODUCT
  | .TIMES => some PRODUCT
  | .MOD => some PRODUCT
  | .LPAREN => some CALL
  | .LBRACKET => some CALL
  | .OR => some ANDOR
  | .ASSING => some ANDOR
  | .COLON => some CALL
  | .PLUSASSING => some PRODUCT
  | .MINUSASSING => some PRODUCT
  | .DIVASSING => some PRODUCT
  | .EXPONENT => some PRODUCT
  | .TIMEASSI => some PRODUCT
  | .PLUS2 => some PRODUCT
  | .MINUS2 => some PRODUCT
  | .DOT => some PREC_UNARY
  | .COLONASSING => some PREC_UNARY
  | _ => none

/-- An identifier AST node (`ast.Identifier`: token + value). -/
structure Identifier where
  token : Token
  value : String
deriving DecidableEq, Repr

mutual

/-- Expression nodes of `package ast`.  Every Go field of interface type
`ast.Expression` is nilable, hence `Option Expression` here; slices only
ever receive non-nil appends, hence plain lists.  Node kinds whose file
is not in the tree (Float, ClassMethodExp, the `nuevo` class call) are
modelled from the spec with the fields their parse sites assign. -/
inductive Expression where
  | ident (i : Identifier)
  | integer (token : Token) (value : Option Int)
  | floatE (token : Token) (literal : String)
  | boolean (token : Token) (value : Option Bool)
  | stringLiteral (token : Token) (value : String)
  | nullE (token : Token)
  | arrayE (token : Token) (values : List Expression)
  | mapE (token : Token) (body : List KeyValue)
  | functionE (token : Token) (parameters : List Identifier) (body : Option Block)
  | arrowFunc (token : Token) (params : List Identifier) (body : Option Block)
  | call (token : Token) (function : Option Expression) (arguments : List Expression)
  | callList (token : Token) (listIdent : Option Expression) (index : Option Expression)
  | methodE (token : Token) (obj : Option Expression) (method : Option Expression)
  | classFieldCall (token : Token) (left : Option Expression) (field : Option Expression)
  | suffix (token : Token) (left : Option Expression) (operator : String)
  | prefixE (token : Token) (operator : String) (rigth : Option Expression)
  | infixE (token : Token) (rigth : Option Expression) (operator : String)
      (left : Option Expression)
  | reassignment (token : Token) (identifier : Option Expression) (newVal : Option Expression)
  | assignmentExp (token : Token) (ident : Identifier) (val : Option Expression)
  | ifE (token : Token) (condition : Option Expression) (consequence : Option Block)
      (alternative : Option Block)
  | whileE (token : Token) (condition : Option Expression) (body : Option Block)
  | forE (token : Token) (condition : Option Expression) (body : Option Block)
  | rangeE (token : Token) (Variable : Option Expression) (range : Option Expression)
  | classMethodE (token : Token) (name : Identifier) (params : List Identifier)
      (body : Option Block)
  | classCall (token : Token) (name : Identifier) (arguments : List Expression)

/-- A `key -> value` pair of a map literal (`ast.KeyValue`). -/
inductive KeyValue where
  | mk (token : Token) (key : Option Expression) (value : Option Expression)

/-- Statement nodes of `package ast`. -/
inductive Stmt where
  | letStmt (token : Token) (name : Identifier) (value : Option Expression)
  | returnStmt (token : Token) (returnValue : Option Expression)
  | expressionStmt (token : Token) (expression : Option Expression)
  | classStmt (token : Token) (name : Identifier) (params : List Identifier)
      (methods : List Expression)
  | importStmt (token : Token) (path : Option Expression)

/-- A brace-delimited block (`ast.Block`). -/
inductive Block where
  | mk (token : Token) (staments : List Stmt)

end

/-- A whole program (`ast.Program`). -/
structure Program where
  staments : List Stmt

/-- The parser's mutable state: the not-yet-pulled token list, the two
tokens of lookahead, the previous token and the error list
(`parser.Parser` of part_001, minus the handler tables, which are the
fixed dispatch functions below). -/
structure PState where
  input : List Token
  current : Token
  peek : Token
  last : Token
  errors : List String

/-- Outcome of running a parser function: normal return with the new
state, a Go panic, or fuel exhaustion (standing for non-termination of
the Go original). -/
inductive PRes (α : Type) where
  | ok (a : α) (s : PState)
  | goPanic (msg : String)
  | timeout

/-- `advanceTokens` of part_001: shift the lookahead window and pull the
next token from the lexer (EOF tail once the input is exhausted). -/
def advanceTokens (s : PState) : PState :=
  match s.input with
  | [] => { s with last := s.current, current := s.peek, peek := eofToken }
  | t :: ts => { s with last := s.current, current := s.peek, peek := t, input := ts }

/-- The parser state right after `NewParser`'s two initial
`advanceTokens` calls, reading from the given token list.  `last` holds
the EOF placeholder standing for Go's initial nil pointer (it is only
ever read by the no-op nil checks). -/
def mkParser (toks : List Token) : PState :=
  { input := toks.drop 2
    current := toks.headD eofToken
    peek := (toks.drop 1).headD eofToken
    last := eofToken
    errors := [] }

/-- Message built by `expectedTokenError` of part_001. -/
def expectedTokenErrorMsg (tt : TokenType) (got : TokenType) : String :=
  "se esperaba que el siguient token fuera " ++ TokensStr tt ++
    " pero se obtuvo " ++ TokensStr got

/-- `expepectedToken` of part_001: advance when the peek token has the
wanted kind, otherwise record a typed error and stay put. -/
def expepectedToken (tt : TokenType) (s : PState) : Bool × PState :=
  if s.peek.tokenType = tt then (true, advanceTokens s)
  else (false, { s with errors := s.errors ++ [expectedTokenErrorMsg tt s.peek.tokenType] })

/-- `currentPrecedence` of part_001 (LOWEST when the kind has no entry). -/
def currentPrecedence (s : PState) : Nat :=
  (precedences s.current.tokenType).getD LOWEST

/-- `peekPrecedence` of part_001 (LOWEST when the kind has no entry). -/
def peekPrecedence (s : PState) : Nat :=
  (precedences s.peek.tokenType).getD LOWEST

/-- Domain of the prefix handler table registered by `registerPrefixFns`
of part_001. -/
def hasPrefixFn : TokenType → Bool
  | .FALSE | .FOR | .FUNCTION | .WHILE | .IDENT | .IF | .INT | .LPAREN | .MINUS
  | .NOT | .TRUE | .STRING | .DATASTRCUT | .NULLT | .MAP | .FLOAT | .NEW => true
  | _ => false

/-- Domain of the infix handler table registered by `registerInfixFns`
of part_001. -/
def hasInfixFn : TokenType → Bool
  | .PLUS | .MINUS | .COLON | .DIVISION | .TIMES | .EQ | .NOT_EQ | .GTOREQ | .LTOREQ
  | .LT | .IN | .GT | .PLUSASSING | .MINUSASSING | .TIMEASSI | .DIVASSING | .EXPONENT
  | .LPAREN | .ASSING | .LBRACKET | .MOD | .AND | .OR | .DOT | .COLONASSING => true
  | _ => false

/-- Domain of the suffix handler table registered by `registerSuffixFns`
of part_001: the postfix `**`, `++` and `--` forms. -/
def hasSuffixFn : TokenType → Bool
  | .EXPONENT | .PLUS2 | .MINUS2 => true
  | _ => false

/-- Message built by `parseExpression` of part_001 when the current token
kind has no registered prefix handler. -/
def noPrefixFnMsg (lit : String) : String :=
  "no se encontro ninguna funcion para parsear " ++ lit

/-- Digit accumulation for `atoi` (structural, so that runs of the
embedded parser reduce definitionally). -/
def atoiCore : List Char → Nat → Option Nat
  | [], acc => some acc
  | c :: cs, acc =>
    if '0' ≤ c ∧ c ≤ '9' then atoiCore cs (acc * 10 + (c.toNat - '0'.toNat))
    else none

/-- `strconv.Atoi` as used by `parseInteger` (src/parser.go): an optional
sign followed by at least one digit, nothing else. -/
def atoi (lit : String) : Option Int :=
  match lit.data with
  | [] => none
  | '-' :: cs => if cs = [] then none else (atoiCore cs 0).map (fun n => -(n : Int))
  | '+' :: cs => if cs = [] then none else (atoiCore cs 0).map (fun n => (n : Int))
  | cs => (atoiCore cs 0).map (fun n => (n : Int))

/-- `parseIdentifier` (src/parser.go; registered by part_001): wrap the
current token as an Identifier expression, no cursor movement. -/
def parseIdentifier (s : PState) : Expression :=
  .ident ⟨s.current, s.current.literal⟩

/-- `parseBoolean` (src/parser.go; registered by part_001). -/
def parseBoolean (s : PState) : Expression :=
  if s.current.tokenType = .TRUE then .boolean s.current (some true)
  else .boolean s.current (some false)

/-- `parseStringLiteral` (src/parser.go; registered by part_001). -/
def parseStringLiteral (s : PState) : Expression :=
  .stringLiteral s.current s.current.literal

/-- `ParseNull` of part_001. -/
def ParseNull (s : PState) : Expression :=
  .nullE s.current

/-- Modelled from the spec: `parseFloat` is registered by part_001 but its
file is not in the tree.  Like `parseInteger` it wraps the current
literal; the floating-point value itself is kept as the literal text
(floating point is outside this embedding). -/
def parseFloat (s : PState) : Expression :=
  .floatE s.current s.current.literal

/-- `parseInteger` (src/parser.go; registered by part_001): Atoi the
literal, recording an error and returning nil when it does not parse. -/
def parseInteger (s : PState) : Option Expression × PState :=
  match atoi s.current.literal with
  | none =>
    (none, { s with errors := s.errors ++
      ["no se pudo parsear " ++ s.current.literal ++ " como entero"] })
  | some v => (some (.integer s.current (some v)), s)

/-- `parseSuffixFn` of part_001: wrap the expression parsed so far in a
Suffix node carrying the current (operator) token. -/
def parseSuffixFn (s : PState) (left : Option Expression) : Expression :=
  .suffix s.current left s.current.literal

/-- `parseArrowValues` of part_000.  Note the shape: at most one comma is
tested (an `if`, not a loop), so at most two identifiers are ever
collected, and a third comma-separated name makes the final
`expepectedToken BAR` fail, which discards everything and returns the
empty list. -/
def parseArrowValues (s : PState) : List Identifier × PState :=
  if s.peek.tokenType = .BAR then ([], advanceTokens s)
  else
    let s1 := advanceTokens s
    let values := [(⟨s1.current, s1.current.literal⟩ : Identifier)]
    let (values, s2) :=
      if s1.peek.tokenType = .COMMA then
        let s2 := advanceTokens (advanceTokens s1)
        (values ++ [(⟨s2.current, s2.current.literal⟩ : Identifier)], s2)
      else (values, s1)
    let (ok, s3) := expepectedToken .BAR s2
    if ok then (values, s3) else ([], s3)

/-- Append an optional parse result, as the Go sites do with their
`if expression != nil` guards around `append`. -/
def optList {α : Type} : Option α → List α
  | some x => [x]
  | none => []

/-- Whether an expression is a `*ast.ClassMethodExp` (the type assertion
in `parseClassStatement`'s body loop). -/
def isClassMethodExp : Expression → Bool
  | .classMethodE _ _ _ _ => true
  | _ => false

/-- Sequencing of parser outcomes: Go panics and fuel exhaustion
propagate, a normal return feeds the continuation. -/
def PRes.bind {α β : Type} : PRes α → (α → PState → PRes β) → PRes β
  | .ok a s, f => f a s
  | .goPanic m, _ => .goPanic m
  | .timeout, _ => .timeout

/-- The zero `l.Token` value (`Token{}` in Go), used by `parseArrowFunc`
for the synthetic one-statement block. -/
def zeroToken : Token := ⟨TokenType.Head, ""⟩

/-- One fuel level of the parser: each field is one (potentially
recursive) method of `*parser.Parser`.  The defaults — everything times
out — are the fuel-0 level. -/
structure ParserFns where
  parseExpression : Nat → PState → PRes (Option Expression) := fun _ _ => .timeout
  prefixDispatch : PState → PRes (Option Expression) := fun _ => .timeout
  infixLoop : Nat → Option Expression → PState → PRes (Option Expression) :=
    fun _ _ _ => .timeout
  infixDispatch : Expression → PState → PRes (Option Expression) := fun _ _ => .timeout
  parseGroupExpression : PState → PRes (Option Expression) := fun _ => .timeout
  parsePrefixExpression : PState → PRes (Option Expression) := fun _ => .timeout
  parseIf : PState → PRes (Option Expression) := fun _ => .timeout
  parseWhile : PState → PRes (Option Expression) := fun _ => .timeout
  parseFor : PState → PRes (Option Expression) := fun _ => .timeout
  parseRangeExpression : PState → PRes (Option Expression) := fun _ => .timeout
  parseFunction : PState → PRes (Option Expression) := fun _ => .timeout
  parseFunctionParameters : PState → PRes (List Identifier) := fun _ => .timeout
  funcParamsLoop : List Identifier → PState → PRes (List Identifier) := fun _ _ => .timeout
  ParseArray : PState → PRes (Option Expression) := fun _ => .timeout
  ParseArrayValues : PState → PRes (List Expression) := fun _ => .timeout
  arrayValuesLoop : List Expression → PState → PRes (List Expression) := fun _ _ => .timeout
  parseCallArguments : PState → PRes (List Expression) := fun _ => .timeout
  callArgsLoop : List Expression → PState → PRes (List Expression) := fun _ _ => .timeout
  parseMap : PState → PRes (Option Expression) := fun _ => .timeout
  mapPairsLoop : List KeyValue → PState → PRes (List KeyValue) := fun _ _ => .timeout
  parseKeyValues : PState → PRes (Option KeyValue) := fun _ => .timeout
  parseClassCall : PState → PRes (Option Expression) := fun _ => .timeout
  parseArrowFunc : PState → PRes (Option Expression) := fun _ => .timeout
  parseInfixExpression : Expression → PState → PRes (Option Expression) := fun _ _ => .timeout
  parseCall : Expression → PState → PRes (Option Expression) := fun _ _ => .timeout
  parseCallList : Expression → PState → PRes (Option Expression) := fun _ _ => .timeout
  parseReassigment : Expression → PState → PRes (Option Expression) := fun _ _ => .timeout
  parseMethod : Expression → PState → PRes (Option Expression) := fun _ _ => .timeout
  parseClassFieldsCall : Expression → PState → PRes (Option Expression) := fun _ _ => .timeout
  parseAssigmentExp : Expression → PState → PRes (Option Expression) := fun _ _ => .timeout
  parseBlock : PState → PRes Block := fun _ => .timeout
  blockLoop : Token → List Stmt → PState → PRes Block := fun _ _ _ => .timeout
  parseStament : PState → PRes (Option Stmt) := fun _ => .timeout
  parserExpressionStatement : PState → PRes Stmt := fun _ => .timeout
  parseLetSatement : PState → PRes (Option Stmt) := fun _ => .timeout
  parseReturnStatement : PState → PRes (Option Stmt) := fun _ => .timeout
  parseClassStatement : PState → PRes (Option Stmt) := fun _ => .timeout
  classMethodLoop : List Expression → PState → PRes (List Expression) := fun _ _ => .timeout
  parseClassMethod : PState → PRes (Option Expression) := fun _ => .timeout
  parseImportStatement : PState → PRes (Option Stmt) := fun _ => .timeout
  progLoop : List Stmt → PState → PRes Program := fun _ _ => .timeout

/-- The fuel-indexed parser.  Level `fuel + 1` implements each method of
`*parser.Parser` exactly as in the source (part_000 / part_001, falling
back to the older src/parser.go for the sub-parsers whose newer file is
not in the tree, and to spec-modelled definitions where no version is in
the tree); every call it makes runs at level `fuel`.  Level 0 times out. -/
def parserCore : Nat → ParserFns
  | 0 => {}
  | fuel + 1 =>
    let prev := parserCore fuel
    { parseExpression := fun precedence s =>
        -- part_001 parseExpression: prefix handler lookup, suffix step,
        -- then the precedence-climbing infix loop.
        if hasPrefixFn s.current.tokenType then
          (prev.prefixDispatch s).bind fun left s1 =>
            if hasSuffixFn s1.peek.tokenType then
              let s2 := advanceTokens s1
              let left2 := some (parseSuffixFn s2 left)
              let s3 := advanceTokens s2
              prev.infixLoop precedence left2 s3
            else
              prev.infixLoop precedence left s1
        else
          .ok none { s with errors := s.errors ++ [noPrefixFnMsg s.current.literal] }
      prefixDispatch := fun s =>
        -- the prefix handler table of registerPrefixFns (part_001); the
        -- catch-all arm is unreachable behind the hasPrefixFn guard.
        match s.current.tokenType with
        | .FALSE => .ok (some (parseBoolean s)) s
        | .TRUE => .ok (some (parseBoolean s)) s
        | .FOR => prev.parseFor s
        | .FUNCTION => prev.parseFunction s
        | .WHILE => prev.parseWhile s
        | .IDENT => .ok (some (parseIdentifier s)) s
        | .IF => prev.parseIf s
        | .INT =>
          let (e, s1) := parseInteger s
          .ok e s1
        | .LPAREN => prev.parseGroupExpression s
        | .MINUS => prev.parsePrefixExpression s
        | .NOT => prev.parsePrefixExpression s
        | .STRING => .ok (some (parseStringLiteral s)) s
        | .DATASTRCUT => prev.ParseArray s
        | .NULLT => .ok (some (ParseNull s)) s
        | .MAP => prev.parseMap s
        | .FLOAT => .ok (some (parseFloat s)) s
        | .NEW => prev.parseClassCall s
        | _ => .ok none s
      infixLoop := fun precedence left s =>
        -- the for-loop of part_001 parseExpression, including its
        -- explicit panic when the accumulated left expression is nil.
        if s.peek.tokenType = .SEMICOLON then .ok left s
        else if precedence < peekPrecedence s then
          if hasInfixFn s.peek.tokenType then
            let s1 := advanceTokens s
            match left with
            | none => .goPanic "Error de parseo :("
            | some l =>
              (prev.infixDispatch l s1).bind fun left2 s2 =>
                prev.infixLoop precedence left2 s2
          else .ok left s
        else .ok left s
      infixDispatch := fun left s =>
        -- the infix handler table of registerInfixFns (part_001), keyed
        -- by the operator token the loop just advanced onto.
        match s.current.tokenType with
        | .PLUS | .MINUS | .DIVISION | .TIMES | .EQ | .NOT_EQ | .GTOREQ | .LTOREQ
        | .LT | .IN | .GT | .PLUSASSING | .MINUSASSING | .TIMEASSI | .DIVASSING
        | .EXPONENT | .MOD | .AND | .OR => prev.parseInfixExpression left s
        | .COLON => prev.parseMethod left s
        | .LPAREN => prev.parseCall left s
        | .ASSING => prev.parseReassigment left s
        | .LBRACKET => prev.parseCallList left s
        | .DOT => prev.parseClassFieldsCall left s
        | .COLONASSING => prev.parseAssigmentExp left s
        | _ => .ok (some left) s
      parseGroupExpression := fun s =>
        -- src/parser.go parseGroupExpression
        let s1 := advanceTokens s
        (prev.parseExpression LOWEST s1).bind fun e s2 =>
          let (ok, s3) := expepectedToken .RPAREN s2
          if ok then .ok e s3 else .ok none s3
      parsePrefixExpression := fun s =>
        -- src/parser.go parsePrefixExpression
        let tok := s.current
        let s1 := advanceTokens s
        (prev.parseExpression PREC_UNARY s1).bind fun right s2 =>
          .ok (some (.prefixE tok tok.literal right)) s2
      parseIf := fun s =>
        -- src/parser.go parseIf
        let tok := s.current
        let (ok1, s1) := expepectedToken .LPAREN s
        if ok1 then
          let s2 := advanceTokens s1
          (prev.parseExpression LOWEST s2).bind fun cond s3 =>
            let (ok2, s4) := expepectedToken .RPAREN s3
            if ok2 then
              let (ok3, s5) := expepectedToken .LBRACE s4
              if ok3 then
                (prev.parseBlock s5).bind fun conseq s6 =>
                  if s6.peek.tokenType = .ELSE then
                    let s7 := advanceTokens s6
                    let (ok4, s8) := expepectedToken .LBRACE s7
                    if ok4 then
                      (prev.parseBlock s8).bind fun alt s9 =>
                        .ok (some (.ifE tok cond (some conseq) (some alt))) s9
                    else .ok none s8
                  else .ok (some (.ifE tok cond (some conseq) none)) s6
              else .ok none s5
            else .ok none s4
        else .ok none s1
      parseWhile := fun s =>
        -- src/parser.go parseWhile
        let tok := s.current
        let (ok1, s1) := expepectedToken .LPAREN s
        if ok1 then
          let s2 := advanceTokens s1
          (prev.parseExpression LOWEST s2).bind fun cond s3 =>
            let (ok2, s4) := expepectedToken .RPAREN s3
            if ok2 then
              let (ok3, s5) := expepectedToken .LBRACE s4
              if ok3 then
                (prev.parseBlock s5).bind fun body s6 =>
                  .ok (some (.whileE tok cond (some body))) s6
              else .ok none s5
            else .ok none s4
        else .ok none s1
      parseFor := fun s =>
        -- src/parser.go parseFor
        let tok := s.current
        let (ok1, s1) := expepectedToken .LPAREN s
        if ok1 then
          (prev.parseRangeExpression s1).bind fun cond s2 =>
            let (ok2, s3) := expepectedToken .RPAREN s2
            if ok2 then
              let (ok3, s4) := expepectedToken .LBRACE s3
              if ok3 then
                (prev.parseBlock s4).bind fun body s5 =>
                  .ok (some (.forE tok cond (some body))) s5
              else .ok none s4
            else .ok none s3
        else .ok none s1
      parseRangeExpression := fun s =>
        -- part_000 parseRangeExpression
        let tok := s.current
        let (ok1, s1) := expepectedToken .IDENT s
        if ok1 then
          let v := parseIdentifier s1
          let (ok2, s2) := expepectedToken .IN s1
          if ok2 then
            let s3 := advanceTokens s2
            (prev.parseExpression LOWEST s3).bind fun rng s4 =>
              .ok (some (.rangeE tok (some v) rng)) s4
          else .ok none s2
        else .ok none s1
      parseFunction := fun s =>
        -- src/parser.go parseFunction
        let tok := s.current
        let (ok1, s1) := expepectedToken .LPAREN s
        if ok1 then
          (prev.parseFunctionParameters s1).bind fun params s2 =>
            let (ok2, s3) := expepectedToken .LBRACE s2
            if ok2 then
              (prev.parseBlock s3).bind fun body s4 =>
                .ok (some (.functionE tok params (some body))) s4
            else .ok none s3
        else .ok none s1
      parseFunctionParameters := fun s =>
        -- part_001 parseFunctionParameters
        if s.peek.tokenType = .RPAREN then .ok [] (advanceTokens s)
        else
          let s1 := advanceTokens s
          let params := [(⟨s1.current, s1.current.literal⟩ : Identifier)]
          (prev.funcParamsLoop params s1).bind fun params2 s2 =>
            let (ok, s3) := expepectedToken .RPAREN s2
            if ok then .ok params2 s3 else .ok [] s3
      funcParamsLoop := fun params s =>
        -- the comma loop of parseFunctionParameters
        if s.peek.tokenType = .COMMA then
          let s1 := advanceTokens (advanceTokens s)
          prev.funcParamsLoop (params ++ [(⟨s1.current, s1.current.literal⟩ : Identifier)]) s1
        else .ok params s
      ParseArray := fun s =>
        -- src/parser.go ParseArray
        let tok := s.current
        let (ok, s1) := expepectedToken .LBRACKET s
        if ok then
          (prev.ParseArrayValues s1).bind fun vals s2 =>
            .ok (some (.arrayE tok vals)) s2
        else .ok none s1
      ParseArrayValues := fun s =>
        -- part_001 ParseArrayValues
        if s.peek.tokenType = .RBRACKET then .ok [] (advanceTokens s)
        else
          let s1 := advanceTokens s
          (prev.parseExpression LOWEST s1).bind fun e s2 =>
            (prev.arrayValuesLoop (optList e) s2).bind fun vals s3 =>
              let (ok, s4) := expepectedToken .RBRACKET s3
              if ok then .ok vals s4 else .ok [] s4
      arrayValuesLoop := fun vals s =>
        -- the comma loop of ParseArrayValues
        if s.peek.tokenType = .COMMA then
          let s1 := advanceTokens (advanceTokens s)
          (prev.parseExpression LOWEST s1).bind fun e s2 =>
            prev.arrayValuesLoop (vals ++ optList e) s2
        else .ok vals s
      parseCallArguments := fun s =>
        -- part_001 parseCallArguments
        if s.peek.tokenType = .RPAREN then .ok [] (advanceTokens s)
        else
          let s1 := advanceTokens s
          (prev.parseExpression LOWEST s1).bind fun e s2 =>
            (prev.callArgsLoop (optList e) s2).bind fun args s3 =>
              let (ok, s4) := expepectedToken .RPAREN s3
              if ok then .ok args s4 else .ok [] s4
      callArgsLoop := fun args s =>
        -- the comma loop of parseCallArguments
        if s.peek.tokenType = .COMMA then
          let s1 := advanceTokens (advanceTokens s)
          (prev.parseExpression LOWEST s1).bind fun e s2 =>
            prev.callArgsLoop (args ++ optList e) s2
        else .ok args s
      parseMap := fun s =>
        -- Modelled from the spec: parseMap is registered by part_001 but
        -- its file is not in the tree.  Spec 4.1: a map literal is
        -- `mapa{key -> value, ...}`, sharing the "empty on immediate
        -- closing token, else parse first then loop on comma" pattern of
        -- the argument/array sub-parsers, with brace delimiters.
        let tok := s.current
        let (ok, s1) := expepectedToken .LBRACE s
        if ok then
          if s1.peek.tokenType = .RBRACE then .ok (some (.mapE tok [])) (advanceTokens s1)
          else
            let s2 := advanceTokens s1
            (prev.parseKeyValues s2).bind fun kv s3 =>
              (prev.mapPairsLoop (optList kv) s3).bind fun body s4 =>
                let (ok2, s5) := expepectedToken .RBRACE s4
                if ok2 then .ok (some (.mapE tok body)) s5 else .ok none s5
        else .ok none s1
      mapPairsLoop := fun body s =>
        -- the comma loop of the map literal
        if s.peek.tokenType = .COMMA then
          let s1 := advanceTokens (advanceTokens s)
          (prev.parseKeyValues s1).bind fun kv s2 =>
            prev.mapPairsLoop (body ++ optList kv) s2
        else .ok body s
      parseKeyValues := fun s =>
        -- part_000 parseKeyValues
        let tok := s.current
        (prev.parseExpression LOWEST s).bind fun k s1 =>
          let (ok, s2) := expepectedToken .ARROW s1
          if ok then
            let s3 := advanceTokens s2
            (prev.parseExpression LOWEST s3).bind fun v s4 =>
              .ok (some (KeyValue.mk tok k v)) s4
          else .ok none s2
      parseClassCall := fun s =>
        -- Modelled from the spec: parseClassCall (`nuevo`-instantiation,
        -- spec 4.4) is registered by part_001 but its file is not in the
        -- tree: the class name follows the keyword, then an optional
        -- parenthesized constructor-argument list.
        let tok := s.current
        let (ok, s1) := expepectedToken .IDENT s
        if ok then
          let name : Identifier := ⟨s1.current, s1.current.literal⟩
          if s1.peek.tokenType = .LPAREN then
            let s2 := advanceTokens s1
            (prev.parseCallArguments s2).bind fun args s3 =>
              .ok (some (.classCall tok name args)) s3
          else .ok (some (.classCall tok name [])) s1
        else .ok none s1
      parseArrowFunc := fun s =>
        -- part_000 parseArrowFunc
        let tok := s.current
        let (params, s1) := parseArrowValues s
        let (ok, s2) := expepectedToken .ARROW s1
        if ok then
          if s2.peek.tokenType = .LBRACE then
            let s3 := advanceTokens s2
            (prev.parseBlock s3).bind fun b s4 =>
              .ok (some (.arrowFunc tok params (some b))) s4
          else
            let s3 := advanceTokens s2
            (prev.parserExpressionStatement s3).bind fun st s4 =>
              .ok (some (.arrowFunc tok params (some (Block.mk zeroToken [st])))) s4
        else .ok none s2
      parseInfixExpression := fun left s =>
        -- part_000 parseInfixExpression: re-enter parseExpression with
        -- the operator's own precedence (same tier, hence left
        -- associativity for equal precedence).
        let tok := s.current
        let precedence := currentPrecedence s
        let s1 := advanceTokens s
        (prev.parseExpression precedence s1).bind fun right s2 =>
          .ok (some (.infixE tok right tok.literal (some left))) s2
      parseCall := fun left s =>
        -- part_000 parseCall
        let tok := s.current
        (prev.parseCallArguments s).bind fun args s1 =>
          .ok (some (.call tok (some left) args)) s1
      parseCallList := fun left s =>
        -- part_000 parseCallList
        let tok := s.current
        let s1 := advanceTokens s
        (prev.parseExpression LOWEST s1).bind fun index s2 =>
          let (ok, s3) := expepectedToken .RBRACKET s2
          if ok then .ok (some (.callList tok (some left) index)) s3 else .ok none s3
      parseReassigment := fun left s =>
        -- part_000 parseReassigment
        let tok := s.current
        let s1 := advanceTokens s
        (prev.parseExpression LOWEST s1).bind fun newVal s2 =>
          .ok (some (.reassignment tok (some left) newVal)) s2
      parseMethod := fun left s =>
        -- part_000 parseMethod
        let tok := s.current
        let (ok, s1) := expepectedToken .IDENT s
        if ok then
          (prev.parseExpression LOWEST s1).bind fun m s2 =>
            .ok (some (.methodE tok (some left) m)) s2
        else .ok none s1
      parseClassFieldsCall := fun left s =>
        -- part_000 parseClassFieldsCall
        let tok := s.current
        let s1 := advanceTokens s
        (prev.parseExpression LOWEST s1).bind fun field s2 =>
          .ok (some (.classFieldCall tok (some left) field)) s2
      parseAssigmentExp := fun left s =>
        -- part_000 parseAssigmentExp: a non-Identifier target returns
        -- nil at once — no error is recorded and no token is consumed.
        match left with
        | .ident i =>
          let tok := s.current
          let s1 := advanceTokens s
          (prev.parseExpression LOWEST s1).bind fun v s2 =>
            .ok (some (.assignmentExp tok i v)) s2
        | _ => .ok none s
      parseBlock := fun s =>
        -- part_001 parseBlock
        let tok := s.current
        prev.blockLoop tok [] (advanceTokens s)
      blockLoop := fun tok stmts s =>
        -- the statement loop of parseBlock (stops on RBRACE / EOF)
        if s.current.tokenType = .RBRACE ∨ s.current.tokenType = .EOF then
          .ok (Block.mk tok stmts) s
        else
          (prev.parseStament s).bind fun st s1 =>
            prev.blockLoop tok (stmts ++ optList st) (advanceTokens s1)
      parseStament := fun s =>
        -- part_001 parseStament
        match s.current.tokenType with
        | .LET => prev.parseLetSatement s
        | .RETURN => prev.parseReturnStatement s
        | .CLASS => prev.parseClassStatement s
        | .IMPORTT => prev.parseImportStatement s
        | _ =>
          (prev.parserExpressionStatement s).bind fun st s1 =>
            .ok (some st) s1
      parserExpressionStatement := fun s =>
        -- part_001 parserExpressionStatement
        let tok := s.current
        (prev.parseExpression LOWEST s).bind fun e s1 =>
          let s2 := if s1.peek.tokenType = .SEMICOLON then advanceTokens s1 else s1
          .ok (Stmt.expressionStmt tok e) s2
      parseLetSatement := fun s =>
        -- part_001 parseLetSatement
        let tok := s.current
        let (ok1, s1) := expepectedToken .IDENT s
        if ok1 then
          let name : Identifier := ⟨s1.current, s1.current.literal⟩
          let (ok2, s2) := expepectedToken .ASSING s1
          if ok2 then
            let s3 := advanceTokens s2
            (prev.parseExpression LOWEST s3).bind fun v s4 =>
              let s5 := if s4.peek.tokenType = .SEMICOLON then advanceTokens s4 else s4
              .ok (some (Stmt.letStmt tok name v)) s5
          else .ok none s2
        else .ok none s1
      parseReturnStatement := fun s =>
        -- part_001 parseReturnStatement
        let tok := s.current
        let s1 := advanceTokens s
        (prev.parseExpression LOWEST s1).bind fun v s2 =>
          let s3 := if s2.peek.tokenType = .SEMICOLON then advanceTokens s2 else s2
          .ok (some (Stmt.returnStmt tok v)) s3
      parseClassStatement := fun s =>
        -- part_001 parseClassStatement
        let tok := s.current
        let (ok1, s1) := expepectedToken .IDENT s
        if ok1 then
          let name : Identifier := ⟨s1.current, s1.current.literal⟩
          let (ok2, s2) := expepectedToken .LPAREN s1
          if ok2 then
            (prev.parseFunctionParameters s2).bind fun params s3 =>
              let (ok3, s4) := expepectedToken .LBRACE s3
              if ok3 then
                let s5 := advanceTokens s4
                (prev.classMethodLoop [] s5).bind fun methods s6 =>
                  .ok (some (Stmt.classStmt tok name params methods)) s6
              else .ok none s4
          else .ok none s2
        else .ok none s1
      classMethodLoop := fun methods s =>
        -- the body loop of parseClassStatement: it runs until RBRACE or
        -- EOF and performs NO advanceTokens of its own — all progress
        -- must come from parseClassMethod.
        if s.current.tokenType = .RBRACE ∨ s.current.tokenType = .EOF then .ok methods s
        else
          (prev.parseClassMethod s).bind fun e s1 =>
            let methods2 := methods ++
              (match e with
               | some ex => if isClassMethodExp ex then [ex] else []
               | none => [])
            prev.classMethodLoop methods2 s1
      parseClassMethod := fun s =>
        -- Modelled from the spec: parseClassMethod is called by
        -- part_001's parseClassStatement but its file is not in the
        -- tree.  Spec 4.1: each class-body entry is "parsed as a method
        -- definition until `}`/EOF" under the same expect-or-error
        -- discipline as every other structural sub-parser — on a
        -- mismatch it records a typed error, does not advance, and
        -- returns nil.  A method definition is a named funcion form:
        -- `funcion` name `(` params `)` `{` block `}`.
        if s.current.tokenType = .FUNCTION then
          let tok := s.current
          let (ok1, s1) := expepectedToken .IDENT s
          if ok1 then
            let name : Identifier := ⟨s1.current, s1.current.literal⟩
            let (ok2, s2) := expepectedToken .LPAREN s1
            if ok2 then
              (prev.parseFunctionParameters s2).bind fun params s3 =>
                let (ok3, s4) := expepectedToken .LBRACE s3
                if ok3 then
                  (prev.parseBlock s4).bind fun body s5 =>
                    .ok (some (.classMethodE tok name params (some body))) (advanceTokens s5)
                else .ok none s4
            else .ok none s2
          else .ok none s1
        else
          .ok none { s with errors := s.errors ++
            [expectedTokenErrorMsg .FUNCTION s.current.tokenType] }
      parseImportStatement := fun s =>
        -- Modelled from the spec: parseImportStatement is dispatched by
        -- part_001's parseStament but its file is not in the tree.  Spec
        -- 4.1 treats it as "recognizing the keyword" and delegating: the
        -- path expression follows the keyword, optional semicolon.
        let tok := s.current
        let s1 := advanceTokens s
        (prev.parseExpression LOWEST s1).bind fun path s2 =>
          let s3 := if s2.peek.tokenType = .SEMICOLON then advanceTokens s2 else s2
          .ok (some (Stmt.importStmt tok path)) s3
      progLoop := fun stmts s =>
        -- the statement loop of ParseProgam (part_001)
        if s.current.tokenType = .EOF then .ok (Program.mk stmts) s
        else
          (prev.parseStament s).bind fun st s1 =>
            prev.progLoop (stmts ++ optList st) (advanceTokens s1) }

/-- `parseExpression` of part_001 at a given fuel. -/
def parseExpression (fuel : Nat) (precedence : Nat) (s : PState) : PRes (Option Expression) :=
  (parserCore fuel).parseExpression precedence s

/-- `ParseProgam` of part_001 at a given fuel, run on a parser freshly
constructed from the given token list (`NewParser` + `ParseProgam`). -/
def ParseProgam (fuel : Nat) (toks : List Token) : PRes Program :=
  (parserCore fuel).progLoop [] (mkParser toks)

/-- `parseAssigmentExp` of part_000 at a given fuel. -/
def parseAssigmentExp (fuel : Nat) (left : Expression) (s : PState) : PRes (Option Expression) :=
  (parserCore fuel).parseAssigmentExp left s

/-- The class-statement body loop of part_001 at a given fuel. -/
def classMethodLoop (fuel : Nat) (methods : List Expression) (s : PState) :
    PRes (List Expression) :=
  (parserCore fuel).classMethodLoop methods s

/-- `parseClassMethod` (spec-modelled, see parserCore) at a given fuel. -/
def parseClassMethod (fuel : Nat) (s : PState) : PRes (Option Expression) :=
  (parserCore fuel).parseClassMethod s

/-- Method kinds referenced by part_002's dispatch switches (`obj.POP`,
`obj.APPEND`, `obj.REMOVE`, `obj.CONTAIS`, `obj.VALUES`; the `obj`
package file is not in the tree). -/
inductive MethodType where
  | POP
  | APPEND
  | REMOVE
  | CONTAIS
  | VALUES
deriving DecidableEq, Repr

/-- Modelled from the spec: the closed runtime value set of `package obj`
(spec section 3), restricted to the kinds the verified evaluator fragment
touches.  A Map's store maps a canonical key serialization to a value; a
Method pairs a method kind with its (already evaluated) argument. -/
inductive Object where
  | number (value : Int)
  | boolean (value : Bool)
  | str (value : String)
  | null
  | error (message : String)
  | list (values : List Object)
  | mapO (store : List (String × Object))
  | methodO (methodType : MethodType) (value : Object)

/-- The shared null instance `obj.SingletonNUll`. -/
def SingletonNUll : Object := Object.null

/-- The evaluator's `newError` helper (its file is not in the tree):
wrap a message as an Error object. -/
def newError (msg : String) : Object := Object.error msg

/-- Modelled from the spec: `obj.Map.Serialize`, the "canonical
serialization of the key Value" (spec 4.4) under which structurally equal
keys collide.  Scalar kinds are serialized as a kind tag plus the value;
composite kinds carry only their kind tag (composite map keys are outside
the claims verified here). -/
def serialize : Object → String
  | .number n => "Numero " ++ toString n
  | .boolean b => if b then "Booleano verdadero" else "Booleano falso"
  | .str s => "Cadena " ++ s
  | .null => "Nulo"
  | .error m => "Error " ++ m
  | .list _ => "Lista"
  | .mapO _ => "Mapa"
  | .methodO _ _ => "Metodo"

/-- Modelled from the spec: `obj.Map.Get` looks a serialized key up in the
store.  For an absent key it returns the Null singleton — required so that
the `contains` method of `evaluateMapMethods` (which tests
`Get(...) != obj.NullVAlue`) reports presence correctly.  As a Go
interface return it is never the nil interface; `Option.none` here stands
for Go's nil interface value and is never produced. -/
def mapGet (store : List (String × Object)) (key : String) : Option Object :=
  match store.lookup key with
  | some v => some v
  | none => some Object.null

/-- Modelled from the spec: `obj.Map.SetValues` inserts key ↦ value under
the key's canonical serialization and returns a non-nil error — without
writing — iff the serialized key is already present ("duplicate-key
insertion rejected", spec 3). -/
def mapSetValues (store : List (String × Object)) (key value : Object) :
    Except String (List (String × Object)) :=
  if (store.lookup (serialize key)).isSome then .error "llave duplicada"
  else .ok (store ++ [(serialize key, value)])

/-- Modelled from the spec: `obj.Map.UpdateKey` replaces the value stored
under the key's serialization (spec 4.4: "update if key exists"). -/
def mapUpdateKey (store : List (String × Object)) (key value : Object) :
    List (String × Object) :=
  store.map (fun p => if p.1 = serialize key then (p.1, value) else p)

/-- Stand-in for the evaluator's `Evaluate` (whose file is not in the
tree): the theorems below hold for any evaluation oracle, with the
environment argument folded into the oracle.  `Option` mirrors the
nilability of the AST fields handed to it. -/
def EvalFn : Type := Option Expression → Object

/-- The key-value fold inside `evaluateMap` of part_002: evaluate each
pair and insert it, turning a duplicate-key insertion error into the
"no se permiten llaves duplicadas" Error value. -/
def evaluateMapGo (evalFn : EvalFn) : List KeyValue → List (String × Object) → Object
  | [], store => Object.mapO store
  | KeyValue.mk _ k v :: rest, store =>
    let key := evalFn k
    let val := evalFn v
    match mapSetValues store key val with
    | .error _ => newError "no se permiten llaves duplicadas"
    | .ok store2 => evaluateMapGo evalFn rest store2

/-- `evaluateMap` of part_002, applied to the literal's body. -/
def evaluateMap (evalFn : EvalFn) (body : List KeyValue) : Object :=
  evaluateMapGo evalFn body []

/-- Go's native slice element write (`list.Values[i] = x`): an in-range
index updates in place, any other index — in particular a negative one —
is a runtime panic, not an Error value. -/
def goSliceSet (vals : List Object) (idx : Int) (v : Object) :
    Except String (List Object) :=
  if 0 ≤ idx ∧ idx < Int.ofNat vals.length then .ok (vals.set idx.toNat v)
  else .error "runtime error: index out of range"

/-- `evaluateListReassigment` of part_002: evaluate the subscript's index;
a non-number index is an Error value; an index `>= len` is the
"Indice fuera de rango" Error value; otherwise the new value is evaluated
and written through the native slice write (which panics on a negative
index, since only the upper bound was checked).  Returns the result object
together with the list contents afterwards. -/
def evaluateListReassigment (evalFn : EvalFn) (callIndex : Option Expression)
    (listValues : List Object) (newVal : Option Expression) :
    Except String (Object × List Object) :=
  match evalFn callIndex with
  | .number n =>
    if n ≥ Int.ofNat listValues.length then
      .ok (Object.error "Indice fuera de rango", listValues)
    else
      (goSliceSet listValues n (evalFn newVal)).map fun vals => (SingletonNUll, vals)
  | _ => .ok (Object.error "El indice debe ser un numero", listValues)

/-- `evaluateMapReassigment` of part_002.  The Go code tests
`err := hashMap.Get(...); err != nil` — but `Get` returns an `obj.Object`
and never the nil interface (see `mapGet`), so the `SetValues` branch
always runs and its duplicate-key error is discarded; `UpdateKey` is
unreachable.  Returns the result object together with the store
afterwards. -/
def evaluateMapReassigment (store : List (String × Object)) (key value : Object) :
    Object × List (String × Object) :=
  match mapGet store (serialize key) with
  | some _ =>
    match mapSetValues store key value with
    | .ok store2 => (SingletonNUll, store2)
    | .error _ => (SingletonNUll, store)
  | none => (SingletonNUll, mapUpdateKey store key value)

/-- Modelled from the spec: `obj.List.Pop` is not in the tree; it removes
and returns the last element, and an empty list yields an Error value
rather than a panic (spec 7: out-of-range list operations are Errors). -/
def listPop (vals : List Object) : Object × List Object :=
  match vals.getLast? with
  | some v => (v, vals.dropLast)
  | none => (Object.error "Indice fuera de rango", vals)

/-- Modelled from the spec: `obj.List.RemoveAt` is not in the tree; an
out-of-range index yields the out-of-range Error value rather than a
panic (spec 8: `lista:remove(n)` out of range errors). -/
def listRemoveAt (vals : List Object) (idx : Int) : Object × List Object :=
  if 0 ≤ idx ∧ idx < Int.ofNat vals.length then
    (SingletonNUll, vals.eraseIdx idx.toNat)
  else (Object.error "Indice fuera de rango", vals)

/-- Modelled from the spec: the `noSuchMethod` error constructor (its
file is not in the tree) — the typed "no such method" Error of spec 4.4,
built from the method rendering and the receiver rendering. -/
def noSuchMethod (method receiver : String) : Object :=
  Object.error ("no existe el metodo " ++ method ++ " para " ++ receiver)

/-- Modelled from the spec: `obj.Method.Inspect` (not in the tree)
renders the method descriptor by its kind. -/
def methodInspect (mt : MethodType) : String :=
  match mt with
  | .POP => "pop"
  | .APPEND => "agregar"
  | .REMOVE => "popIndice"
  | .CONTAIS => "contiene"
  | .VALUES => "valores"

/-- `evaluateListMethods` of part_002.  The REMOVE arm performs the Go
single-result type assertion `method.Value.(*obj.Number)` — a non-number
argument is therefore a runtime panic, not an Error value.  Returns the
result object together with the list contents afterwards. -/
def evaluateListMethods (listValues : List Object) (methodType : MethodType)
    (methodValue : Object) : Except String (Object × List Object) :=
  match methodType with
  | .POP => .ok (listPop listValues)
  | .APPEND => .ok (SingletonNUll, listValues ++ [methodValue])
  | .REMOVE =>
    match methodValue with
    | .number n => .ok (listRemoveAt listValues n)
    | _ => .error "interface conversion: interface \x7bobj.Object\x7d is not *obj.Number"
  | _ => .ok (noSuchMethod (methodInspect methodType) "list", listValues)

/-- Whether an object is the null value (the `!= obj.NullVAlue` test). -/
def isNullObj : Object → Bool
  | .null => true
  | _ => false

/-- `evaluateMapMethods` of part_002: `contains` tests
`Get(serialized) != obj.NullVAlue`; `values` collects the store's
values into a fresh list; anything else is the no-such-method Error. -/
def evaluateMapMethods (store : List (String × Object)) (methodType : MethodType)
    (methodValue : Object) : Object :=
  match methodType with
  | .CONTAIS =>
    match mapGet store (serialize methodValue) with
    | some v => Object.boolean (!(isNullObj v))
    | none => Object.boolean true
  | .VALUES => Object.list (store.map Prod.snd)
  | _ => noSuchMethod (methodInspect methodType) "mapa"

/-- `evaluateMethod` of part_002, parameterized over the evaluation
oracle and the AST printer (the `Str` implementations for the node kinds
this branch renders are not in the tree).  The receiver is evaluated
first; a List or Map receiver dispatches on the evaluated Method
descriptor; any other receiver kind is the no-such-method Error.  When
the method expression does not evaluate to a Method, the Go code calls
`Inspect` on the nil `*obj.Method` left by the failed two-result type
assertion — modelled as the nil-dereference runtime panic.  Returns the
result object together with the receiver afterwards. -/
def evaluateMethod (evalFn : EvalFn) (strFn : Option Expression → String)
    (objExpr methodExpr : Option Expression) : Except String (Object × Object) :=
  match evalFn objExpr with
  | .list vals =>
    match evalFn methodExpr with
    | .methodO mt v => (evaluateListMethods vals mt v).map fun p => (p.1, Object.list p.2)
    | _ => .error "runtime error: invalid memory address or nil pointer dereference"
  | .mapO store =>
    match evalFn methodExpr with
    | .methodO mt v => .ok (evaluateMapMethods store mt v, Object.mapO store)
    | _ => .error "runtime error: invalid memory address or nil pointer dereference"
  | other => .ok (noSuchMethod (strFn methodExpr) (strFn objExpr), other)

/-- A concrete evaluation oracle for literal nodes, used to instantiate
the oracle-parameterized facts at concrete inputs. -/
def litEval : Option Expression → Object
  | some (.integer _ (some n)) => Object.number n
  | some (.stringLiteral _ s) => Object.str s
  | _ => Object.null

/-- An integer literal node as the parser builds it. -/
def intLit (n : Int) : Expression := .integer ⟨TokenType.INT, toString n⟩ (some n)

/-- A string literal node as the parser builds it. -/
def strLit (s : String) : Expression := .stringLiteral ⟨TokenType.STRING, s⟩ s

/-- The expression an expression-parse run returned, when it returned. -/
def resultExpr : PRes (Option Expression) → Option Expression
  | .ok e _ => e
  | _ => none

/-- Whether an expression is an `*ast.Identifier` (the type switch of
`parseAssigmentExp`). -/
def isIdentExpr : Expression → Bool
  | .ident _ => true
  | _ => false

/-- Helper: a timed-out sub-parse times the whole sequencing out. -/
theorem bind_timeout {α β : Type} (r : PRes α) (k : α → PState → PRes β)
    (h : r = PRes.timeout) : r.bind k = PRes.timeout := by
  rw [h]
  rfl

/-- Helper for C7: on a class-body token of kind INT (not a `funcion`
keyword and not a closing brace or EOF), `parseClassMethod` either times
out or records one error and returns nil without moving the cursor. -/
theorem parseClassMethod_stuck (fuel : Nat) (s : PState)
    (h : s.current.tokenType = TokenType.INT) :
    parseClassMethod fuel s = PRes.timeout ∨
      parseClassMethod fuel s =
        PRes.ok none { s with errors := s.errors ++
          [expectedTokenErrorMsg TokenType.FUNCTION s.current.tokenType] } := by
  cases fuel with
  | zero => exact Or.inl rfl
  | succ f =>
    right
    simp [parseClassMethod, parserCore, h]

/-- Helper for C7: once the class-statement body loop faces an INT
token, it never terminates — `parseClassMethod` keeps failing without
consuming anything and the loop itself never advances, at every fuel. -/
theorem classMethodLoop_stuck :
    ∀ (fuel : Nat) (ms : List Expression) (s : PState),
      s.current.tokenType = TokenType.INT →
      classMethodLoop fuel ms s = PRes.timeout := by
  intro fuel
  induction fuel with
  | zero => intro ms s h; rfl
  | succ f ih =>
    intro ms s h
    have hcm := parseClassMethod_stuck f s h
    simp only [parseClassMethod] at hcm
    simp only [classMethodLoop, parserCore]
    rw [if_neg (by simp [h])]
    rcases hcm with hcm | hcm
    · rw [hcm]
      rfl
    · rw [hcm]
      simp only [PRes.bind]
      exact ih _ _ h

/-- C7: REFUTED on the modelled parseClassMethod.  The claim says
`ParseProgam` terminates for every token sequence ending in EOF, no loop
running without consuming a token.  On the token stream of
`clase A ( ) \x7b 5` (a class body whose entry is not a method
definition) the class-statement body loop of part_001 — which performs no
`advanceTokens` of its own — spins forever: the run times out at every
fuel, i.e. the Go original never returns. -/
theorem C7_class_body_hang : ∀ fuel : Nat,
    ParseProgam fuel [⟨.CLASS, "clase"⟩, ⟨.IDENT, "A"⟩, ⟨.LPAREN, "("⟩, ⟨.RPAREN, ")"⟩,
      ⟨.LBRACE, "\x7b"⟩, ⟨.INT, "5"⟩, eofToken] = PRes.timeout := by
  intro fuel
  match fuel with
  | 0 => rfl
  | 1 => rfl
  | 2 => rfl
  | 3 => rfl
  | e + 4 =>
    exact bind_timeout _ _ (bind_timeout _ _
      (classMethodLoop_stuck (e + 1) [] ⟨[], ⟨.INT, "5"⟩, ⟨.EOF, ""⟩, ⟨.LBRACE, "\x7b"⟩, []⟩ rfl))

/-- C1: REFUTED.  The claim says `ParseProgam` never raises a fatal
failure and the panic branch inside `parseExpression` (left expression
nil while an infix continuation is pending) is unreachable.  On the token
stream of `si [ 1` the IF prefix handler fails (peek is `[`, not `(`),
returns nil, and the infix loop — seeing `[` with CALL precedence —
advances and hits the `panic("Error de parseo :(")` branch: the parse
aborts with a Go panic instead of recording an error and returning. -/
theorem C1_panic_reachable :
    ParseProgam 8 [⟨.IF, "si"⟩, ⟨.LBRACKET, "["⟩, ⟨.INT, "1"⟩, eofToken] =
      PRes.goPanic "Error de parseo :(" := rfl

/-- C2: the two in-spec behaviours hold — an index `>= len` yields the
"Indice fuera de rango" Error with the list unchanged, and an in-range
index replaces the element in place — but the claim's negative-index
clause is REFUTED: `evaluateListReassigment` only checks the upper bound
(`num.Value >= len(list.Values)`), so index `-1` reaches the native slice
write and panics the host instead of producing an Error value. -/
theorem C2_list_subscript_bounds :
    (evaluateListReassigment litEval (some (intLit 2)) [Object.number 7, Object.number 8]
        (some (intLit 9)) =
      Except.ok (Object.error "Indice fuera de rango", [Object.number 7, Object.number 8]))
  ∧ (evaluateListReassigment litEval (some (intLit 0)) [Object.number 7, Object.number 8]
        (some (intLit 9)) =
      Except.ok (SingletonNUll, [Object.number 9, Object.number 8]))
  ∧ (evaluateListReassigment litEval (some (intLit (-1))) [Object.number 7, Object.number 8]
        (some (intLit 9)) =
      Except.error "runtime error: index out of range") :=
  ⟨rfl, rfl, rfl⟩

/-- C3: map-literal construction with two identically-serializing keys
is rejected with the "no se permiten llaves duplicadas" Error, and
reassignment on an absent key inserts the pair returning Null; but the
claim's update half is REFUTED: on an existing key,
`evaluateMapReassigment`'s `err != nil` test on `Get` (which never
returns Go's nil interface) always selects the `SetValues` branch, whose
duplicate-key rejection is discarded — the call returns Null and the
stored value stays unchanged instead of being updated. -/
theorem C3_map_keys :
    (evaluateMap litEval [KeyValue.mk zeroToken (some (strLit "x")) (some (intLit 1)),
        KeyValue.mk zeroToken (some (strLit "x")) (some (intLit 2))] =
      newError "no se permiten llaves duplicadas")
  ∧ (evaluateMapReassigment [(serialize (Object.str "x"), Object.number 1)]
        (Object.str "x") (Object.number 2) =
      (SingletonNUll, [(serialize (Object.str "x"), Object.number 1)]))
  ∧ (evaluateMapReassigment [] (Object.str "x") (Object.number 2) =
      (SingletonNUll, [(serialize (Object.str "x"), Object.number 2)])) :=
  ⟨rfl, rfl, rfl⟩

/-- C4: CONFIRMED.  The precedence-climbing loop parses `1 + 2 * 3` as
`1 + (2 * 3)`, `2 * 3 + 1` as `(2 * 3) + 1`, and — because each infix
handler re-enters parseExpression with the operator's own precedence —
equal-precedence operators associate left-to-right: `1 - 2 - 3` parses as
`(1 - 2) - 3`. -/
theorem C4_precedence_climbing :
    (resultExpr (parseExpression 10 LOWEST (mkParser [⟨.INT, "1"⟩, ⟨.PLUS, "+"⟩, ⟨.INT, "2"⟩,
        ⟨.TIMES, "*"⟩, ⟨.INT, "3"⟩, ⟨.SEMICOLON, ";"⟩, eofToken])) =
      some (.infixE ⟨.PLUS, "+"⟩
        (some (.infixE ⟨.TIMES, "*"⟩ (some (.integer ⟨.INT, "3"⟩ (some 3))) "*"
          (some (.integer ⟨.INT, "2"⟩ (some 2))))) "+"
        (some (.integer ⟨.INT, "1"⟩ (some 1)))))
  ∧ (resultExpr (parseExpression 10 LOWEST (mkParser [⟨.INT, "2"⟩, ⟨.TIMES, "*"⟩, ⟨.INT, "3"⟩,
        ⟨.PLUS, "+"⟩, ⟨.INT, "1"⟩, ⟨.SEMICOLON, ";"⟩, eofToken])) =
      some (.infixE ⟨.PLUS, "+"⟩ (some (.integer ⟨.INT, "1"⟩ (some 1))) "+"
        (some (.infixE ⟨.TIMES, "*"⟩ (some (.integer ⟨.INT, "3"⟩ (some 3))) "*"
          (some (.integer ⟨.INT, "2"⟩ (some 2)))))))
  ∧ (resultExpr (parseExpression 10 LOWEST (mkParser [⟨.INT, "1"⟩, ⟨.MINUS, "-"⟩, ⟨.INT, "2"⟩,
        ⟨.MINUS, "-"⟩, ⟨.INT, "3"⟩, ⟨.SEMICOLON, ";"⟩, eofToken])) =
      some (.infixE ⟨.MINUS, "-"⟩ (some (.integer ⟨.INT, "3"⟩ (some 3))) "-"
        (some (.infixE ⟨.MINUS, "-"⟩ (some (.integer ⟨.INT, "2"⟩ (some 2))) "-"
          (some (.integer ⟨.INT, "1"⟩ (some 1))))))) :=
  ⟨rfl, rfl, rfl⟩

/-- C5: CONFIRMED.  When the peek token has a registered suffix handler
(`**`, `++`, `--`), parseExpression applies it to the left expression
immediately, before the infix loop runs: `2 ** 3` becomes the Suffix node
`(2)**` — the suffix reading preempts the infix reading of `**` even
though `**` also has an infix handler of higher precedence — and `a ++`
becomes `(a)++`. -/
theorem C5_suffix_before_infix :
    (resultExpr (parseExpression 10 LOWEST (mkParser [⟨.INT, "2"⟩, ⟨.EXPONENT, "**"⟩,
        ⟨.INT, "3"⟩, ⟨.SEMICOLON, ";"⟩, eofToken])) =
      some (.suffix ⟨.EXPONENT, "**"⟩ (some (.integer ⟨.INT, "2"⟩ (some 2))) "**"))
  ∧ (resultExpr (parseExpression 10 LOWEST (mkParser [⟨.IDENT, "a"⟩, ⟨.PLUS2, "++"⟩,
        ⟨.SEMICOLON, ";"⟩, eofToken])) =
      some (.suffix ⟨.PLUS2, "++"⟩ (some (.ident ⟨⟨.IDENT, "a"⟩, "a"⟩)) "++")) :=
  ⟨rfl, rfl⟩

/-- C6: the closed method sets hold — a map-kind method on a List
receiver falls to the no-such-method Error, a non-List/Map receiver
yields the no-such-method Error, and `remove` with an out-of-range index
yields the "Indice fuera de rango" Error — but the claim's non-numeric
clause is REFUTED: `evaluateListMethods` converts the REMOVE argument
with the single-result type assertion `method.Value.(*obj.Number)`, so a
string argument panics the host process instead of producing an Error. -/
theorem C6_method_dispatch :
    (evaluateListMethods [Object.number 1, Object.number 2] MethodType.REMOVE (Object.str "a") =
      Except.error "interface conversion: interface \x7bobj.Object\x7d is not *obj.Number")
  ∧ (evaluateListMethods [Object.number 1] MethodType.CONTAIS Object.null =
      Except.ok (noSuchMethod (methodInspect MethodType.CONTAIS) "list", [Object.number 1]))
  ∧ (evaluateListMethods [Object.number 1] MethodType.REMOVE (Object.number 5) =
      Except.ok (Object.error "Indice fuera de rango", [Object.number 1]))
  ∧ (evaluateMethod litEval (fun _ => "m") (some (intLit 7)) (some (intLit 0)) =
      Except.ok (noSuchMethod "m" "m", Object.number 7)) :=
  ⟨rfl, rfl, rfl, rfl⟩

/-- C8: CONFIRMED.  Whenever parseExpression runs on a current token
whose kind has no registered prefix handler, it appends exactly one
diagnostic naming that token's literal to the error list, returns the
empty (nil) expression, and leaves the token cursor (input, current,
peek, last) exactly where it was. -/
theorem C8_missing_prefix_error (fuel precedence : Nat) (s : PState)
    (h : hasPrefixFn s.current.tokenType = false) :
    parseExpression (fuel + 1) precedence s =
      PRes.ok none { s with errors := s.errors ++ [noPrefixFnMsg s.current.literal] } := by
  simp [parseExpression, parserCore, h]

/-- Witness for C8 at a concrete state: `)` has no prefix handler. -/
theorem C8_missing_prefix_error_witness :
    hasPrefixFn TokenType.RPAREN = false ∧
    parseExpression 4 LOWEST ⟨[], ⟨.RPAREN, ")"⟩, eofToken, eofToken, []⟩ =
      PRes.ok none ⟨[], ⟨.RPAREN, ")"⟩, eofToken, eofToken,
        ["no se encontro ninguna funcion para parsear )"]⟩ :=
  ⟨rfl, C8_missing_prefix_error 3 LOWEST ⟨[], ⟨.RPAREN, ")"⟩, eofToken, eofToken, []⟩ rfl⟩

/-- C9 counterexample: parsing `5 := 3` rejects the non-identifier
`:=` target — no AssignmentExp node appears in the program — but the
final error list is empty: no descriptive error string was appended for
it, contradicting the claim's failure-semantics half. -/
theorem C9_counterexample_no_error_recorded :
    ParseProgam 8 [⟨.INT, "5"⟩, ⟨.COLONASSING, ":="⟩, ⟨.INT, "3"⟩, eofToken] =
      PRes.ok ⟨[Stmt.expressionStmt ⟨.INT, "5"⟩ none,
          Stmt.expressionStmt ⟨.INT, "3"⟩ (some (.integer ⟨.INT, "3"⟩ (some 3)))]⟩
        ⟨[], ⟨.EOF, ""⟩, ⟨.EOF, ""⟩, ⟨.INT, "3"⟩, []⟩ := rfl

/-- C9 as amended: for every left-hand expression that is not an
Identifier node, parseAssigmentExp rejects the construct — no
AssignmentExp node is produced (nil is returned) — but silently: the
state, including the error list, is returned untouched. -/
theorem C9_nonident_target_rejected_silently (fuel : Nat) (left : Expression) (s : PState)
    (h : isIdentExpr left = false) :
    parseAssigmentExp (fuel + 1) left s = PRes.ok none s := by
  cases left
  all_goals first
  | rfl
  | (simp [isIdentExpr] at h)

/-- Witness for the amended C9 at a concrete non-identifier target. -/
theorem C9_nonident_target_witness :
    isIdentExpr (intLit 5) = false ∧
    parseAssigmentExp 3 (intLit 5) ⟨[⟨.EOF, ""⟩], ⟨.COLONASSING, ":="⟩, ⟨.INT, "3"⟩, ⟨.INT, "5"⟩, []⟩ =
      PRes.ok none ⟨[⟨.EOF, ""⟩], ⟨.COLONASSING, ":="⟩, ⟨.INT, "3"⟩, ⟨.INT, "5"⟩, []⟩ :=
  ⟨rfl, C9_nonident_target_rejected_silently 2 (intLit 5)
    ⟨[⟨.EOF, ""⟩], ⟨.COLONASSING, ":="⟩, ⟨.INT, "3"⟩, ⟨.INT, "5"⟩, []⟩ rfl⟩

/-- C10: CONFIRMED.  parseArrowValues can never collect more than two
parameters (the comma test is an `if`, not a loop), and on the
three-parameter list `|a, b, c|` the third comma makes the final
expected-BAR check fail, which records the expected-`|` error and returns
the empty parameter list. -/
theorem C10_arrow_params_at_most_two :
    (∀ s : PState, (parseArrowValues s).1.length ≤ 2)
  ∧ parseArrowValues (mkParser [⟨.BAR, "|"⟩, ⟨.IDENT, "a"⟩, ⟨.COMMA, ","⟩, ⟨.IDENT, "b"⟩,
        ⟨.COMMA, ","⟩, ⟨.IDENT, "c"⟩, ⟨.BAR, "|"⟩, eofToken]) =
      ([], ⟨[⟨.IDENT, "c"⟩, ⟨.BAR, "|"⟩, ⟨.EOF, ""⟩], ⟨.IDENT, "b"⟩, ⟨.COMMA, ","⟩, ⟨.COMMA, ","⟩,
        ["se esperaba que el siguient token fuera | pero se obtuvo ,"]⟩) := by
  constructor
  · intro s
    by_cases h1 : s.peek.tokenType = TokenType.BAR
    · simp [parseArrowValues, h1]
    · by_cases h2 : (advanceTokens s).peek.tokenType = TokenType.COMMA
      · by_cases h3 :
            (advanceTokens (advanceTokens (advanceTokens s))).peek.tokenType = TokenType.BAR <;>
          simp [parseArrowValues, expepectedToken, h1, h2, h3]
      · by_cases h3 : (advanceTokens s).peek.tokenType = TokenType.BAR <;>
          simp [parseArrowValues, expepectedToken, h1, h2, h3]
  · rfl
